import Mathlib

/-!
Shallow embedding of the SQL safety / pagination / parameter-substitution /
error-classification core of the postgres-mcp-server query tool
(`src/tools/query.ts`, with the input schema from `src/validation.ts`).

Statements are modelled as `List Char` (the relevant JavaScript string
operations are ASCII-level: `trim`, `toUpperCase`, `includes`, `startsWith`,
regular-expression word boundaries `\b`, and `String.prototype.replace`).
`process.env.READ_ONLY` is modelled as an `Option String` argument passed to
each call, mirroring the per-call read in `isReadOnlyMode()`.
-/

set_option maxRecDepth 4000

/-- The JavaScript regular-expression word class `\w = [A-Za-z0-9_]`,
used by the `\b` boundaries in the denylist scan and in the
parameter-placeholder pattern. -/
def isWordChar (c : Char) : Bool :=
  (65 ≤ c.toNat && c.toNat ≤ 90) || (97 ≤ c.toNat && c.toNat ≤ 122) ||
  (48 ≤ c.toNat && c.toNat ≤ 57) || c.toNat == 95

/-- Whitespace removed by JavaScript `String.prototype.trim` (ASCII part):
space, tab, line feed, carriage return, vertical tab, form feed. -/
def isJsWs (c : Char) : Bool :=
  c == ' ' || c == '\t' || c == '\n' || c == '\r' || c == '\x0b' || c == '\x0c'

/-- `String.prototype.trim`, left half. -/
def trimLeft (l : List Char) : List Char := l.dropWhile isJsWs

/-- `String.prototype.trim`, right half. -/
def trimRight (l : List Char) : List Char := (l.reverse.dropWhile isJsWs).reverse

/-- `String.prototype.trim`. -/
def trimList (l : List Char) : List Char := trimRight (trimLeft l)

/-- `String.prototype.toUpperCase` (ASCII fragment): `Char.toUpper` maps
`a`-`z` to `A`-`Z` and leaves everything else unchanged. -/
def upperList (l : List Char) : List Char := l.map Char.toUpper

/-- JavaScript `String.prototype.includes`: substring containment. -/
def containsSub (l pat : List Char) : Bool :=
  match l with
  | [] => pat.isEmpty
  | _ :: t => pat.isPrefixOf l || containsSub t pat

/-- One candidate position of the regular expression `\bPAT\b` in `l`:
the literal text `pat` occurs at index `i` and both neighbours (when they
exist) are non-word characters. -/
def matchWordAt (l pat : List Char) (i : Nat) : Bool :=
  decide ((l.drop i).take pat.length = pat)
    && (i == 0 || ((l[i - 1]?).all fun c => !isWordChar c))
    && ((l[i + pat.length]?).all fun c => !isWordChar c)

/-- `new RegExp("\\b" ++ pat ++ "\\b").test l` for a pattern made of word
characters: some position of `l` matches. -/
def containsWord (l pat : List Char) : Bool :=
  (List.range (l.length + 1)).any (matchWordAt l pat)

/-- The single-quote character (ASCII 39). -/
def squote : Char := Char.ofNat 39

/-- The backslash character (ASCII 92). -/
def bslash : Char := Char.ofNat 92

/-- The NUL character (ASCII 0). -/
def nulChar : Char := Char.ofNat 0

/-- The backtick character (ASCII 96). -/
def btick : Char := Char.ofNat 96

/-- The single quote as a one-character string. -/
def sqStr : String := String.singleton squote

/-- The denylist of `DANGEROUS_OPERATIONS` from `src/tools/query.ts`. -/
def DANGEROUS_OPERATIONS : List String :=
  ["DROP", "CREATE", "ALTER", "TRUNCATE", "GRANT", "REVOKE", "VACUUM",
   "ANALYZE", "CLUSTER", "REINDEX", "COPY", "BACKUP", "RESTORE", "ATTACH",
   "DETACH", "PRAGMA"]

/-- Result of `validateSqlSafety`: the source returns `{isValid: true}` or
`{isValid: false, error: <message>}` and never mixes the two shapes. -/
inductive SafetyResult where
  | valid : SafetyResult
  | invalid : String → SafetyResult
deriving DecidableEq

def SafetyResult.isValid : SafetyResult → Bool
  | .valid => true
  | .invalid _ => false

def SafetyResult.errorMsg : SafetyResult → Option String
  | .valid => none
  | .invalid e => some e

/-- `isReadOnlyMode()`: `process.env.READ_ONLY !== "false"`, evaluated on
the environment value passed to the current call. -/
def isReadOnlyMode (readOnlyEnv : Option String) : Bool :=
  readOnlyEnv != some "false"

/-- The error text `Dangerous operation '<kw>' is not allowed`. -/
def dangerousMsg (kw : String) : String :=
  "Dangerous operation " ++ sqStr ++ kw ++ sqStr ++ " is not allowed"

/-- The `dangerousPatterns` list of `validateWhereClause`
(`WHERE 1=1`, `WHERE 1 = 1`, `WHERE TRUE`, `WHERE 1`, `WHERE «1»=«1»`
with single and with double quotes). -/
def dangerousWherePatterns : List (List Char) :=
  ["WHERE 1=1".data, "WHERE 1 = 1".data, "WHERE TRUE".data, "WHERE 1".data,
   ("WHERE " ++ sqStr ++ "1" ++ sqStr ++ "=" ++ sqStr ++ "1" ++ sqStr).data,
   "WHERE \"1\"=\"1\"".data]

/-- `validateWhereClause(upperSql)`: `upperSql` must contain `WHERE` as a
substring and none of the trivially-true patterns. -/
def validateWhereClause (upperSql : List Char) : Bool :=
  containsSub upperSql "WHERE".data
    && !(dangerousWherePatterns.any fun pat => containsSub upperSql pat)

/-- `upperSql.startsWith("SELECT") || startsWith("WITH") || startsWith("EXPLAIN")`:
the read-only acceptance test (applied to the trimmed, upper-cased text). -/
def startsWithReadOnly (upperSql : List Char) : Bool :=
  "SELECT".data.isPrefixOf upperSql || "WITH".data.isPrefixOf upperSql
    || "EXPLAIN".data.isPrefixOf upperSql

/-- `validateSqlSafety(sqlString)` from `src/tools/query.ts`, with the
`READ_ONLY` environment value passed explicitly (the source reads it through
`isReadOnlyMode()` on every call). The `typeof` half of the first guard
cannot fail for a `List Char` input; the falsy check catches the empty
string. -/
def validateSqlSafety (readOnlyEnv : Option String) (sqlString : List Char) :
    SafetyResult :=
  if sqlString.isEmpty then
    .invalid "SQL query is required and must be a string"
  else
    let trimmedSql := trimList sqlString
    if trimmedSql.isEmpty then .invalid "SQL query cannot be empty"
    else
      let upperSql := upperList trimmedSql
      match DANGEROUS_OPERATIONS.find? (fun kw => containsWord upperSql kw.data) with
      | some kw => .invalid (dangerousMsg kw)
      | none =>
        if isReadOnlyMode readOnlyEnv then
          if startsWithReadOnly upperSql then .valid
          else .invalid "Only SELECT, WITH, and EXPLAIN queries are allowed in read-only mode"
        else
          if containsSub upperSql "UPDATE".data || containsSub upperSql "DELETE".data then
            if validateWhereClause upperSql then .valid
            else .invalid "UPDATE and DELETE operations must include a valid WHERE clause (not WHERE 1=1, WHERE true, etc.)"
          else .valid

/-- `isReadOnlyQuery(sqlString)`: trimmed, upper-cased statement starts with
`SELECT`, `WITH` or `EXPLAIN`. -/
def isReadOnlyQuery (sqlString : List Char) : Bool :=
  startsWithReadOnly (upperList (trimList sqlString))

/-- `isSingleRowAggregate(upperSql)`: an aggregate call without `GROUP BY`. -/
def isSingleRowAggregate (upperSql : List Char) : Bool :=
  (containsSub upperSql "COUNT(".data || containsSub upperSql "SUM(".data
    || containsSub upperSql "AVG(".data || containsSub upperSql "MAX(".data
    || containsSub upperSql "MIN(".data)
  && !containsSub upperSql "GROUP BY".data

/-- `MAX_PAGE_SIZE`: `parseInt(process.env.MAX_PAGE_SIZE || "500", 10)` at
its default. -/
def MAX_PAGE_SIZE : Nat := 500

/-- `DEFAULT_PAGE_SIZE`: `parseInt(process.env.DEFAULT_PAGE_SIZE || "100", 10)`
at its default. -/
def DEFAULT_PAGE_SIZE : Nat := 100

/-- JavaScript `a || d` for an optional number `a`: `undefined` and the falsy
number `0` both fall back to `d`. -/
def jsOrNat (v : Option Nat) (d : Nat) : Nat :=
  match v with
  | some n => if n == 0 then d else n
  | none => d

/-- Return shape of `applyPagination`. -/
structure PaginatedSql where
  sql : List Char
  actualPageSize : Nat
  actualOffset : Nat
deriving DecidableEq

/-- `applyPagination(sqlString, pageSize, offset)` from `src/tools/query.ts`. -/
def applyPagination (sqlString : List Char) (pageSize offset : Option Nat) :
    PaginatedSql :=
  let upperSql := upperList sqlString
  if containsSub upperSql "LIMIT".data || containsSub upperSql "OFFSET".data then
    { sql := sqlString
      actualPageSize := jsOrNat pageSize DEFAULT_PAGE_SIZE
      actualOffset := jsOrNat offset 0 }
  else
    let actualPageSize := min (jsOrNat pageSize DEFAULT_PAGE_SIZE) MAX_PAGE_SIZE
    let actualOffset := jsOrNat offset 0
    if isSingleRowAggregate upperSql then
      { sql := sqlString, actualPageSize, actualOffset }
    else
      { sql := trimList sqlString ++ (" LIMIT " ++ toString actualPageSize).data
          ++ (if actualOffset > 0 then (" OFFSET " ++ toString actualOffset).data else [])
        actualPageSize, actualOffset }

/-- A JavaScript number as the parameters use it: an integer value, or one of
the non-finite values. (Non-integer finite doubles play no role in the
claims; their decimal rendering is the only thing the tool uses.) -/
inductive JsNumber where
  | int : Int → JsNumber
  | nan : JsNumber
  | posInf : JsNumber
  | negInf : JsNumber
deriving DecidableEq

/-- `Number.isFinite`. -/
def JsNumber.isFinite : JsNumber → Bool
  | .int _ => true
  | _ => false

/-- `String(n)` for the modelled numbers. -/
def JsNumber.render : JsNumber → List Char
  | .int i => (toString i).data
  | .nan => "NaN".data
  | .posInf => "Infinity".data
  | .negInf => "-Infinity".data

/-- One element of the `parameters` array: the four allowed primitive types,
plus `obj` for any other JavaScript value (object, array, ...), which input
validation and the tool's own type check both reject. -/
inductive SqlParam where
  | null : SqlParam
  | str : List Char → SqlParam
  | bool : Bool → SqlParam
  | num : JsNumber → SqlParam
  | obj : SqlParam
deriving DecidableEq

/-- The string-escaping chain
`.replace(/'/g, "''").replace(/\\/g, "\\\\").replace(/\0/g, "")`:
single quotes doubled, then backslashes doubled, then NUL bytes removed
(each is a global single-character replacement, i.e. a per-character map). -/
def escapeString (s : List Char) : List Char :=
  (((s.flatMap fun c => if c == squote then [squote, squote] else [c]).flatMap
      fun c => if c == bslash then [bslash, bslash] else [c]).filter
    fun c => c != nulChar)

/-- The `escapedValue` the `forEach` body computes for a parameter: `NULL`,
a single-quoted escaped string, `TRUE`/`FALSE`, or the number's decimal
rendering. (`obj` never reaches this point: the type-check loop has already
returned; its value here is irrelevant and set to the empty literal.) -/
def escapeLiteral : SqlParam → List Char
  | .null => "NULL".data
  | .str s => squote :: (escapeString s ++ [squote])
  | .bool b => (if b then "TRUE" else "FALSE").data
  | .num n => n.render
  | .obj => []

/-- The placeholder text `$i`. -/
def phText (n : Nat) : List Char := '$' :: (toString n).data

/-- A match of the regular expression `\$<digits>\b` at index `i` of `l`:
the literal text `pat` (a `$` followed by digits) occurs at `i` and the
following character, if any, is a non-word character. -/
def matchTokenAt (l pat : List Char) (i : Nat) : Bool :=
  decide ((l.drop i).take pat.length = pat)
    && ((l[i + pat.length]?).all fun c => !isWordChar c)

/-- The match positions a global regex scan visits: try each index left to
right, and on a match jump past the matched text. `fuel` bounds the
recursion (`l.length + 1` always suffices). -/
def findTokens (l pat : List Char) : Nat → Nat → List Nat
  | _, 0 => []
  | i, fuel + 1 =>
    if i + pat.length ≤ l.length then
      if matchTokenAt l pat i then i :: findTokens l pat (i + pat.length) fuel
      else findTokens l pat (i + 1) fuel
    else []

/-- All (non-overlapping, leftmost) matches of `\$<digits>\b` in `l`. -/
def jsFindMatches (l pat : List Char) : List Nat :=
  findTokens l pat 0 (l.length + 1)

/-- ECMAScript `GetSubstitution`: expansion of the replacement template.
`$$` yields `$`; `$&` the matched text; a `$` before a backtick the part of
the original string before the match; `$` followed by a single quote the
part after the match; anything else (including `$<digit>`, as the pattern
has no capture groups) is literal. -/
def expandTemplate (matched before after : List Char) : List Char → List Char
  | [] => []
  | [c] => [c]
  | c :: d :: rest =>
    if c == '$' then
      if d == '$' then '$' :: expandTemplate matched before after rest
      else if d == '&' then matched ++ expandTemplate matched before after rest
      else if d == btick then before ++ expandTemplate matched before after rest
      else if d == squote then after ++ expandTemplate matched before after rest
      else c :: expandTemplate matched before after (d :: rest)
    else c :: expandTemplate matched before after (d :: rest)

/-- Rebuild the string from the original text, the match positions and a
per-match replacement: copy the text between matches, insert `expandAt i`
for the match at `i`. -/
def spliceSegs (l : List Char) (patLen : Nat) (expandAt : Nat → List Char) :
    List Nat → Nat → List Char
  | [], j => l.drop j
  | i :: rest, j =>
    (l.drop j).take (i - j) ++ expandAt i ++ spliceSegs l patLen expandAt rest (i + patLen)

/-- JavaScript `l.replace(new RegExp("\\$i\\b", "g"), repl)` with a string
replacement argument: every match is replaced by the template expansion of
`repl` in that match's context. -/
def jsReplaceAll (l pat repl : List Char) : List Char :=
  spliceSegs l pat.length
    (fun i => expandTemplate pat (l.take i) (l.drop (i + pat.length)) repl)
    (jsFindMatches l pat) 0

/-- Plain textual replacement of every `\$i\b` match by the literal `repl`,
with no template expansion: what §4.3 of the spec describes. -/
def plainReplaceAll (l pat repl : List Char) : List Char :=
  spliceSegs l pat.length (fun _ => repl) (jsFindMatches l pat) 0

/-- The body of the substitution `forEach` for the parameter at 0-based
index `idx`: compute the escaped literal and replace the placeholder
`$(idx+1)`. For a non-finite number the source `return`s an error object
from the *callback*; `Array.prototype.forEach` discards that value, so the
net effect is that no replacement happens and the loop continues. -/
def substStep (acc : List Char) (idx : Nat) (p : SqlParam) : List Char :=
  match p with
  | .num n =>
    if n.isFinite then jsReplaceAll acc (phText (idx + 1)) (escapeLiteral p)
    else acc
  | _ => jsReplaceAll acc (phText (idx + 1)) (escapeLiteral p)

def substituteFrom (idx : Nat) (acc : List Char) : List SqlParam → List Char
  | [] => acc
  | p :: rest => substituteFrom (idx + 1) (substStep acc idx p) rest

/-- The whole substitution loop: `parameters.forEach((param, index) => ...)`
over the statement text. -/
def substituteParams (s : List Char) (ps : List SqlParam) : List Char :=
  substituteFrom 0 s ps

/-- Substitution as §4.3 of the spec words it: for each parameter at
position `i` (1-based), every occurrence of the whole-token placeholder
`$i` is replaced with the escaped literal — a plain textual splice. -/
def specSubstituteFrom (idx : Nat) (acc : List Char) : List SqlParam → List Char
  | [] => acc
  | p :: rest =>
    specSubstituteFrom (idx + 1) (plainReplaceAll acc (phText (idx + 1)) (escapeLiteral p)) rest

/-- Spec-worded substitution over a whole parameter list. -/
def specSubstituteParams (s : List Char) (ps : List SqlParam) : List Char :=
  specSubstituteFrom 0 s ps

/-- The classified error the `catch` block builds. -/
structure ClassifiedError where
  error : String
  code : String
  hint : String
deriving DecidableEq

/-- The ordered substring classification of the `catch` block in
`queryTool`. -/
def classifyError (errorMessage : List Char) : ClassifiedError :=
  if containsSub errorMessage "syntax error".data then
    ⟨"SQL syntax error - please check your query", "SYNTAX_ERROR",
     "Review your SQL syntax, check for missing keywords, proper quotes, and correct table/column names"⟩
  else if containsSub errorMessage "permission denied".data
      || containsSub errorMessage "access denied".data then
    ⟨"Access denied - insufficient permissions", "PERMISSION_DENIED",
     "Contact your database administrator to grant necessary permissions"⟩
  else if containsSub errorMessage "duplicate key value".data
      || containsSub errorMessage "unique constraint".data then
    ⟨"Duplicate value - this record already exists", "DUPLICATE_KEY",
     "Check for existing records with the same unique values before inserting"⟩
  else if containsSub errorMessage "foreign key constraint".data then
    ⟨"Foreign key constraint violation", "FOREIGN_KEY_VIOLATION",
     "Ensure referenced records exist before creating relationships"⟩
  else if containsSub errorMessage "relation".data
      && containsSub errorMessage "does not exist".data then
    ⟨"Table or view does not exist", "RELATION_NOT_FOUND",
     "Check table name spelling and schema. Use list_tables to see available tables"⟩
  else if containsSub errorMessage "column".data
      && containsSub errorMessage "does not exist".data then
    ⟨"Column does not exist", "COLUMN_NOT_FOUND",
     "Check column name spelling. Use describe_table to see available columns"⟩
  else if containsSub errorMessage "timeout".data
      || containsSub errorMessage "cancelled".data then
    ⟨"Query timeout - operation took too long", "TIMEOUT",
     "Try optimizing your query or adding appropriate indexes"⟩
  else
    ⟨"Database operation failed", "DATABASE_ERROR",
     "Check your query syntax and permissions, then try again"⟩

/-- One ordered classification rule, as §4.4 of the spec words it. -/
structure ErrorRule where
  test : List Char → Bool
  error : String
  code : String
  hint : String

/-- The ordered rule list of §4.4 (first matching rule wins). -/
def errorRules : List ErrorRule :=
  [⟨fun m => containsSub m "syntax error".data,
    "SQL syntax error - please check your query", "SYNTAX_ERROR",
    "Review your SQL syntax, check for missing keywords, proper quotes, and correct table/column names"⟩,
   ⟨fun m => containsSub m "permission denied".data || containsSub m "access denied".data,
    "Access denied - insufficient permissions", "PERMISSION_DENIED",
    "Contact your database administrator to grant necessary permissions"⟩,
   ⟨fun m => containsSub m "duplicate key value".data || containsSub m "unique constraint".data,
    "Duplicate value - this record already exists", "DUPLICATE_KEY",
    "Check for existing records with the same unique values before inserting"⟩,
   ⟨fun m => containsSub m "foreign key constraint".data,
    "Foreign key constraint violation", "FOREIGN_KEY_VIOLATION",
    "Ensure referenced records exist before creating relationships"⟩,
   ⟨fun m => containsSub m "relation".data && containsSub m "does not exist".data,
    "Table or view does not exist", "RELATION_NOT_FOUND",
    "Check table name spelling and schema. Use list_tables to see available tables"⟩,
   ⟨fun m => containsSub m "column".data && containsSub m "does not exist".data,
    "Column does not exist", "COLUMN_NOT_FOUND",
    "Check column name spelling. Use describe_table to see available columns"⟩,
   ⟨fun m => containsSub m "timeout".data || containsSub m "cancelled".data,
    "Query timeout - operation took too long", "TIMEOUT",
    "Try optimizing your query or adding appropriate indexes"⟩]

/-- First-match-wins classification over `errorRules`, with the
`DATABASE_ERROR` fallback. -/
def specClassify (msg : List Char) : ClassifiedError :=
  match errorRules.find? (fun r => r.test msg) with
  | some r => ⟨r.error, r.code, r.hint⟩
  | none =>
    ⟨"Database operation failed", "DATABASE_ERROR",
     "Check your query syntax and permissions, then try again"⟩

/-- Result of `sql.raw(...).execute(db)`: either the driver returns rows
(and possibly an affected-row count), or it throws with a message. The row
type `ρ` is opaque to the tool. -/
inductive DbResult (ρ : Type) where
  | success : List ρ → Option Nat → DbResult ρ
  | failure : List Char → DbResult ρ
deriving DecidableEq

/-- The `pagination` object of a read-only success. -/
structure PaginationInfo where
  hasMore : Bool
  pageSize : Nat
  offset : Nat
deriving DecidableEq

/-- `QueryOutput` of `src/validation.ts`: every field optional. -/
structure QueryOutput (ρ : Type) where
  rows : Option (List ρ) := none
  rowCount : Option Nat := none
  error : Option String := none
  code : Option String := none
  hint : Option String := none
  pagination : Option PaginationInfo := none
deriving DecidableEq

/-- The tool's input after JSON decoding (already shaped; `QueryInputSchema`
bounds are checked by `validateQueryInput`). -/
structure QueryInput where
  sql : List Char
  parameters : Option (List SqlParam) := none
  pageSize : Option Nat := none
  offset : Option Nat := none
deriving DecidableEq

/-- Which parameter values pass the zod union
`z.union([z.string(), z.number(), z.boolean(), z.null()])`: any primitive of
the four types. zod's `z.number()` rejects `NaN` (parsed type `nan`) but
accepts `±Infinity`; objects and arrays fail the union. -/
def SqlParam.zodValid : SqlParam → Bool
  | .obj => false
  | .num .nan => false
  | _ => true

/-- `validateInput(QueryInputSchema, input)` from `src/validation.ts`:
`sql` between 1 and 50000 characters, parameters through the union above,
`pageSize` in `[1, 500]`, `offset ≥ 0` (automatic for `Nat`). Returns
`some <first error>` on failure (message text abridged from zod), `none` on
success. -/
def validateQueryInput (inp : QueryInput) : Option String :=
  if inp.sql.length < 1 then some "sql: SQL query cannot be empty"
  else if inp.sql.length > 50000 then some "sql: SQL query too long"
  else if !((inp.parameters.getD []).all SqlParam.zodValid) then
    some "parameters: Invalid input"
  else
    match inp.pageSize with
    | some n =>
      if n < 1 then some "pageSize: Number must be greater than or equal to 1"
      else if n > 500 then some "pageSize: Number must be less than or equal to 500"
      else none
    | none => none

/-- The read-only success / caught-failure shaping around
`sql.raw(paginatedSql).execute(db)`. -/
def execRead {ρ : Type} (db : List Char → DbResult ρ) (pg : PaginatedSql) :
    QueryOutput ρ :=
  match db pg.sql with
  | .failure msg =>
    let c := classifyError msg
    { error := some c.error, code := some c.code, hint := some c.hint }
  | .success rows _ =>
    { rows := some rows
      rowCount := some rows.length
      pagination := some
        { hasMore := rows.length == pg.actualPageSize
          pageSize := pg.actualPageSize
          offset := pg.actualOffset } }

/-- The write-path success / caught-failure shaping:
`{rowCount: result.numAffectedRows ? Number(...) : 0}`. -/
def execWrite {ρ : Type} (db : List Char → DbResult ρ) (stmt : List Char) :
    QueryOutput ρ :=
  match db stmt with
  | .failure msg =>
    let c := classifyError msg
    { error := some c.error, code := some c.code, hint := some c.hint }
  | .success _ numAffectedRows => { rowCount := some (numAffectedRows.getD 0) }

/-- The type-check loop over the parameters: `typeof` each element must be
string, number or boolean, or the element must be `null`. -/
def hasBadParamType (ps : List SqlParam) : Bool := ps.any (· == SqlParam.obj)

def invalidParamTypeMsg : String :=
  "Invalid parameter type - only string, number, boolean, and null are allowed"

/-- `queryTool(input)` from `src/tools/query.ts`. `readOnlyEnv` is the value
of `process.env.READ_ONLY` during this call; `db` stands for the backend:
the result of executing a final statement text (the single awaited point,
wrapped by the `try`/`catch` whose handler is `classifyError`). -/
def queryTool {ρ : Type} (readOnlyEnv : Option String)
    (db : List Char → DbResult ρ) (input : QueryInput) : QueryOutput ρ :=
  match validateQueryInput input with
  | some e => { error := some ("Input validation failed: " ++ e) }
  | none =>
    match validateSqlSafety readOnlyEnv input.sql with
    | .invalid e => { error := some e }
    | .valid =>
      let trimmedSql := trimList input.sql
      let ps := input.parameters.getD []
      if isReadOnlyQuery trimmedSql then
        let pg := applyPagination trimmedSql input.pageSize input.offset
        if ps.isEmpty then execRead db pg
        else if hasBadParamType ps then { error := some invalidParamTypeMsg }
        else execRead db { pg with sql := substituteParams pg.sql ps }
      else
        if ps.isEmpty then execWrite db trimmedSql
        else if hasBadParamType ps then { error := some invalidParamTypeMsg }
        else execWrite db (substituteParams trimmedSql ps)

theorem bool_eq_iff {a b : Bool} : a = b ↔ ((a = true) ↔ (b = true)) := by
  cases a <;> cases b <;> simp

theorem containsWord_iff {l pat : List Char} :
    containsWord l pat = true ↔ ∃ i, i ≤ l.length ∧ matchWordAt l pat i = true := by
  simp [containsWord, List.any_eq_true, List.mem_range, Nat.lt_succ_iff]

theorem matchWordAt_take {l pat : List Char} {i : Nat}
    (h : matchWordAt l pat i = true) : (l.drop i).take pat.length = pat := by
  simp only [matchWordAt, Bool.and_eq_true, decide_eq_true_eq] at h
  exact h.1.1

theorem matchWordAt_le {l pat : List Char} {i : Nat} (hp : pat ≠ [])
    (h : matchWordAt l pat i = true) : i + pat.length ≤ l.length := by
  have ht := matchWordAt_take h
  have hlen : ((l.drop i).take pat.length).length = pat.length := by rw [ht]
  have hpos : 0 < pat.length := List.length_pos.mpr hp
  simp only [List.length_take, List.length_drop] at hlen
  omega

theorem ws_char_cases {c : Char} (h : isJsWs c = true) :
    c = ' ' ∨ c = '\t' ∨ c = '\n' ∨ c = '\r' ∨ c = '\x0b' ∨ c = '\x0c' := by
  simpa [isJsWs, Bool.or_eq_true, beq_iff_eq, or_assoc] using h

theorem ws_not_word {c : Char} (h : isJsWs c = true) : isWordChar c = false := by
  rcases ws_char_cases h with h|h|h|h|h|h <;> subst h <;> decide

theorem ws_toUpper {c : Char} (h : isJsWs c = true) : c.toUpper = c := by
  rcases ws_char_cases h with h|h|h|h|h|h <;> subst h <;> decide

theorem matchWordAt_cons_succ {c : Char} (hc : isWordChar c = false)
    (l pat : List Char) (j : Nat) :
    matchWordAt (c :: l) pat (j + 1) = matchWordAt l pat j := by
  cases j with
  | zero =>
    simp [matchWordAt, hc, List.getElem?_cons_succ, Nat.add_comm 1 pat.length]
  | succ k =>
    have h1 : k + 1 + 1 - 1 = k + 1 := rfl
    have h2 : k + 1 + 1 + pat.length = (k + 1 + pat.length) + 1 := by omega
    simp [matchWordAt, h2, List.getElem?_cons_succ, List.drop_succ_cons]

theorem matchWordAt_cons_zero {c : Char} {l pat : List Char} (hp : pat ≠ [])
    (hw : pat.all isWordChar = true) (hc : isWordChar c = false) :
    matchWordAt (c :: l) pat 0 = false := by
  cases pat with
  | nil => exact absurd rfl hp
  | cons p pt =>
    rw [Bool.eq_false_iff]
    intro h
    have ht := matchWordAt_take h
    simp only [List.drop_zero, List.length_cons, List.take_succ_cons] at ht
    have hpc : p = c := (List.cons.injEq _ _ _ _ ▸ ht).1.symm
    have hpw : isWordChar p = true := by
      have := List.all_eq_true.mp hw p (List.mem_cons_self p pt)
      exact this
    rw [hpc, hc] at hpw
    cases hpw

theorem containsWord_cons_notword {c : Char} (hc : isWordChar c = false)
    {l pat : List Char} (hp : pat ≠ []) (hw : pat.all isWordChar = true) :
    containsWord (c :: l) pat = containsWord l pat := by
  rw [bool_eq_iff, containsWord_iff, containsWord_iff]
  constructor
  · rintro ⟨i, hi, hm⟩
    cases i with
    | zero => rw [matchWordAt_cons_zero hp hw hc] at hm; cases hm
    | succ j =>
      refine ⟨j, ?_, ?_⟩
      · simp only [List.length_cons] at hi; omega
      · rwa [matchWordAt_cons_succ hc] at hm
  · rintro ⟨j, hj, hm⟩
    refine ⟨j + 1, ?_, ?_⟩
    · simp only [List.length_cons]; omega
    · rwa [matchWordAt_cons_succ hc]

theorem matchWordAt_append_eq {l pat : List Char} {c : Char} {i : Nat}
    (hp : pat ≠ []) (hc : isWordChar c = false)
    (hle : i + pat.length ≤ l.length) :
    matchWordAt (l ++ [c]) pat i = matchWordAt l pat i := by
  have hpos : 0 < pat.length := List.length_pos.mpr hp
  have hil : i ≤ l.length := by omega
  unfold matchWordAt
  have htake : ((l ++ [c]).drop i).take pat.length = (l.drop i).take pat.length := by
    rw [List.drop_append_of_le_length hil]
    exact List.take_append_of_le_length (by simp [List.length_drop]; omega)
  have hleft : ((i == 0) || (((l ++ [c])[i - 1]?).all fun d => !isWordChar d))
      = ((i == 0) || ((l[i - 1]?).all fun d => !isWordChar d)) := by
    cases i with
    | zero => rfl
    | succ j =>
      have hj : j < l.length := by omega
      simp only [Nat.add_sub_cancel]
      rw [List.getElem?_append_left hj]
  have hright : (((l ++ [c])[i + pat.length]?).all fun d => !isWordChar d)
      = ((l[i + pat.length]?).all fun d => !isWordChar d) := by
    rcases Nat.lt_or_ge (i + pat.length) l.length with hlt | hge
    · rw [List.getElem?_append_left hlt]
    · have heq : i + pat.length = l.length := by omega
      rw [heq]
      have h1 : (l ++ [c])[l.length]? = some c := by
        rw [List.getElem?_append_right (Nat.le_refl _)]
        simp
      have h2 : l[l.length]? = none := by
        simp
      rw [h1, h2]
      simp [hc]
  rw [htake, hleft, hright]

theorem matchWordAt_append_bound {l pat : List Char} {c : Char} {i : Nat}
    (hp : pat ≠ []) (hw : pat.all isWordChar = true) (hc : isWordChar c = false)
    (hm : matchWordAt (l ++ [c]) pat i = true) : i + pat.length ≤ l.length := by
  have hle := matchWordAt_le hp hm
  simp only [List.length_append, List.length_singleton] at hle
  rcases Nat.lt_or_ge (i + pat.length) (l.length + 1) with hlt | hge
  · omega
  · exfalso
    have heq : i + pat.length = l.length + 1 := by omega
    have hil : i ≤ l.length := by
      have hpos : 0 < pat.length := List.length_pos.mpr hp
      omega
    have ht := matchWordAt_take hm
    rw [List.drop_append_of_le_length hil] at ht
    have hlen2 : (l.drop i ++ [c]).length = pat.length := by
      simp [List.length_drop]; omega
    have hfull : (l.drop i ++ [c]).take pat.length = l.drop i ++ [c] := by
      rw [← hlen2]; exact List.take_length _
    rw [hfull] at ht
    have hcin : c ∈ pat := by
      rw [← ht]; exact List.mem_append_right _ (List.mem_singleton_self c)
    have := List.all_eq_true.mp hw c hcin
    rw [hc] at this
    cases this

theorem containsWord_append_notword {c : Char} (hc : isWordChar c = false)
    {l pat : List Char} (hp : pat ≠ []) (hw : pat.all isWordChar = true) :
    containsWord (l ++ [c]) pat = containsWord l pat := by
  rw [bool_eq_iff, containsWord_iff, containsWord_iff]
  constructor
  · rintro ⟨i, hi, hm⟩
    have hb := matchWordAt_append_bound hp hw hc hm
    have hpos : 0 < pat.length := List.length_pos.mpr hp
    refine ⟨i, by omega, ?_⟩
    rwa [matchWordAt_append_eq hp hc hb] at hm
  · rintro ⟨i, hi, hm⟩
    have hb := matchWordAt_le hp hm
    refine ⟨i, ?_, ?_⟩
    · simp only [List.length_append, List.length_singleton]; omega
    · rwa [matchWordAt_append_eq hp hc hb]

theorem containsWord_upper_trimLeft (s pat : List Char) (hp : pat ≠ [])
    (hw : pat.all isWordChar = true) :
    containsWord (upperList (trimLeft s)) pat = containsWord (upperList s) pat := by
  induction s with
  | nil => rfl
  | cons c t ih =>
    by_cases hws : isJsWs c = true
    · have h1 : trimLeft (c :: t) = trimLeft t := by
        simp [trimLeft, List.dropWhile_cons, hws]
      have h2 : upperList (c :: t) = c :: upperList t := by
        simp [upperList, ws_toUpper hws]
      rw [h1, h2, ih, containsWord_cons_notword (ws_not_word hws) hp hw]
    · have h1 : trimLeft (c :: t) = c :: t := by
        simp [trimLeft, List.dropWhile_cons, hws]
      rw [h1]

theorem trimRight_append (l : List Char) (a : Char) :
    trimRight (l ++ [a]) = if isJsWs a then trimRight l else l ++ [a] := by
  unfold trimRight
  rw [List.reverse_append]
  simp only [List.reverse_singleton, List.singleton_append, List.dropWhile_cons]
  by_cases hws : isJsWs a = true
  · rw [if_pos hws, if_pos hws]
  · rw [if_neg hws, if_neg hws]
    simp

theorem containsWord_upper_trimRight (s pat : List Char) (hp : pat ≠ [])
    (hw : pat.all isWordChar = true) :
    containsWord (upperList (trimRight s)) pat = containsWord (upperList s) pat := by
  induction s using List.reverseRecOn with
  | nil => rfl
  | append_singleton l a ih =>
    rw [trimRight_append]
    by_cases hws : isJsWs a = true
    · rw [if_pos hws, ih]
      have h2 : upperList (l ++ [a]) = upperList l ++ [a] := by
        simp [upperList, ws_toUpper hws]
      rw [h2, containsWord_append_notword (ws_not_word hws) hp hw]
    · rw [if_neg hws]

theorem containsWord_upper_trim (s pat : List Char) (hp : pat ≠ [])
    (hw : pat.all isWordChar = true) :
    containsWord (upperList (trimList s)) pat = containsWord (upperList s) pat := by
  rw [trimList, containsWord_upper_trimRight _ _ hp hw,
    containsWord_upper_trimLeft _ _ hp hw]

theorem containsWord_ne_nil {l pat : List Char} (hp : pat ≠ [])
    (h : containsWord l pat = true) : l ≠ [] := by
  obtain ⟨i, _, hm⟩ := containsWord_iff.mp h
  have := matchWordAt_le hp hm
  have hpos : 0 < pat.length := List.length_pos.mpr hp
  intro hnil
  subst hnil
  simp only [List.length_nil] at this
  omega

theorem dangerous_kw_wordish :
    ∀ kw ∈ DANGEROUS_OPERATIONS, kw.data ≠ [] ∧ kw.data.all isWordChar = true := by
  decide

theorem dangerousMsg_ne_empty (kw : String) : dangerousMsg kw ≠ "" := by
  intro habs
  have hlen : (dangerousMsg kw).length = 0 := by rw [habs]; rfl
  unfold dangerousMsg at hlen
  have hsq : sqStr.length = 1 := rfl
  simp only [String.length_append, hsq] at hlen
  omega

theorem validateSqlSafety_empty {env : Option String} {s : List Char}
    (h : s.isEmpty = true) :
    validateSqlSafety env s = .invalid "SQL query is required and must be a string" := by
  simp [validateSqlSafety, h]

theorem validateSqlSafety_trim_empty {env : Option String} {s : List Char}
    (h1 : s.isEmpty = false) (h2 : (trimList s).isEmpty = true) :
    validateSqlSafety env s = .invalid "SQL query cannot be empty" := by
  simp [validateSqlSafety, h1, h2]

theorem validateSqlSafety_denylist {env : Option String} {s : List Char} {kw : String}
    (h1 : s.isEmpty = false) (h2 : (trimList s).isEmpty = false)
    (h3 : DANGEROUS_OPERATIONS.find? (fun kw => containsWord (upperList (trimList s)) kw.data) = some kw) :
    validateSqlSafety env s = .invalid (dangerousMsg kw) := by
  simp [validateSqlSafety, h1, h2, h3]

theorem validateSqlSafety_gate {env : Option String} {s : List Char}
    (h1 : s.isEmpty = false) (h2 : (trimList s).isEmpty = false)
    (h3 : DANGEROUS_OPERATIONS.find? (fun kw => containsWord (upperList (trimList s)) kw.data) = none) :
    validateSqlSafety env s =
      (if isReadOnlyMode env then
        (if startsWithReadOnly (upperList (trimList s)) then SafetyResult.valid
         else .invalid "Only SELECT, WITH, and EXPLAIN queries are allowed in read-only mode")
      else
        (if containsSub (upperList (trimList s)) "UPDATE".data
            || containsSub (upperList (trimList s)) "DELETE".data then
          (if validateWhereClause (upperList (trimList s)) then SafetyResult.valid
           else .invalid "UPDATE and DELETE operations must include a valid WHERE clause (not WHERE 1=1, WHERE true, etc.)")
         else SafetyResult.valid)) := by
  simp [validateSqlSafety, h1, h2, h3]

theorem isEmpty_false_of_ne {l : List Char} (h : l ≠ []) : l.isEmpty = false := by
  cases l with
  | nil => exact absurd rfl h
  | cons c t => rfl

theorem startsWithReadOnly_ne_nil {u : List Char} (h : startsWithReadOnly u = true) :
    u ≠ [] := by
  intro h0
  subst h0
  revert h
  decide

/-- C1: in read-only mode, a statement whose trimmed text does not start
(case-insensitively) with `SELECT`, `WITH` or `EXPLAIN` is rejected with a
descriptive (non-empty) reason, and a statement that does so start and
contains no denylisted keyword (as a whole word, any case) is allowed. -/
theorem readonly_mode_gate (env : Option String) (s : List Char)
    (hro : isReadOnlyMode env = true) :
    (startsWithReadOnly (upperList (trimList s)) = false →
      (validateSqlSafety env s).isValid = false ∧
        ∃ m, (validateSqlSafety env s).errorMsg = some m ∧ m ≠ "") ∧
    (startsWithReadOnly (upperList (trimList s)) = true →
      (∀ kw ∈ DANGEROUS_OPERATIONS, containsWord (upperList s) kw.data = false) →
      validateSqlSafety env s = .valid) := by
  constructor
  · intro hns
    by_cases h1 : s.isEmpty = true
    · rw [validateSqlSafety_empty h1]
      exact ⟨rfl, _, rfl, by decide⟩
    · have h1f : s.isEmpty = false := by
        cases hb : s.isEmpty
        · rfl
        · exact absurd hb h1
      by_cases h2 : (trimList s).isEmpty = true
      · rw [validateSqlSafety_trim_empty h1f h2]
        exact ⟨rfl, _, rfl, by decide⟩
      · have h2f : (trimList s).isEmpty = false := by
          cases hb : (trimList s).isEmpty
          · rfl
          · exact absurd hb h2
        cases h3 : DANGEROUS_OPERATIONS.find?
            (fun kw => containsWord (upperList (trimList s)) kw.data) with
        | some kw =>
          rw [validateSqlSafety_denylist h1f h2f h3]
          exact ⟨rfl, _, rfl, dangerousMsg_ne_empty kw⟩
        | none =>
          rw [validateSqlSafety_gate h1f h2f h3, if_pos hro,
            if_neg (by rw [hns]; exact Bool.false_ne_true)]
          exact ⟨rfl, _, rfl, by decide⟩
  · intro hsw hnd
    have hune : trimList s ≠ [] := by
      intro h0
      rw [h0] at hsw
      revert hsw
      decide
    have hsne : s ≠ [] := by
      intro h0
      apply hune
      rw [h0]
      decide
    have h3 : DANGEROUS_OPERATIONS.find?
        (fun kw => containsWord (upperList (trimList s)) kw.data) = none := by
      rw [List.find?_eq_none]
      intro kw hkw
      obtain ⟨hne, hword⟩ := dangerous_kw_wordish kw hkw
      rw [containsWord_upper_trim _ _ hne hword, hnd kw hkw]
      exact Bool.false_ne_true
    rw [validateSqlSafety_gate (isEmpty_false_of_ne hsne) (isEmpty_false_of_ne hune) h3,
      if_pos hro, if_pos hsw]

/-- Witness for C1: the unset environment is read-only; `DELETE FROM t` is
rejected there and `SELECT 1` is allowed. -/
theorem readonly_mode_gate_witness :
    (validateSqlSafety none "DELETE FROM t".data).isValid = false ∧
      validateSqlSafety none "SELECT 1".data = .valid := by
  constructor
  · exact ((readonly_mode_gate none _ (by decide)).1 (by decide)).1
  · exact (readonly_mode_gate none _ (by decide)).2 (by decide) (by decide)

/-- C2: a statement containing a denylisted keyword as a whole word (any
letter case, word-boundary match) is rejected by the safety gate in every
mode, with an error message. -/
theorem denylist_rejects (env : Option String) (s : List Char) (kw : String)
    (hkw : kw ∈ DANGEROUS_OPERATIONS)
    (h : containsWord (upperList s) kw.data = true) :
    (validateSqlSafety env s).isValid = false ∧
      (validateSqlSafety env s).errorMsg.isSome = true := by
  obtain ⟨hne, hword⟩ := dangerous_kw_wordish kw hkw
  have hbridge : containsWord (upperList (trimList s)) kw.data = true := by
    rw [containsWord_upper_trim _ _ hne hword]
    exact h
  have hsne : s ≠ [] := by
    intro h0
    subst h0
    have := containsWord_ne_nil hne h
    simp [upperList] at this
  have htne : trimList s ≠ [] := by
    intro h0
    rw [h0] at hbridge
    have := containsWord_ne_nil hne hbridge
    simp [upperList] at this
  have hfind : (DANGEROUS_OPERATIONS.find?
      (fun k => containsWord (upperList (trimList s)) k.data)).isSome :=
    List.find?_isSome.mpr ⟨kw, hkw, hbridge⟩
  obtain ⟨kw2, hkw2⟩ := Option.isSome_iff_exists.mp hfind
  rw [validateSqlSafety_denylist (isEmpty_false_of_ne hsne) (isEmpty_false_of_ne htne) hkw2]
  exact ⟨rfl, rfl⟩

/-- Witness for C2: a piggybacked upper-case `DROP` in write mode, and a
lower-case `drop` with leading whitespace in read-only mode, are both
rejected. -/
theorem denylist_rejects_witness :
    (validateSqlSafety (some "false") "SELECT 1; DROP TABLE users".data).isValid = false ∧
      (validateSqlSafety none "  drop table users".data).isValid = false := by
  constructor
  · exact (denylist_rejects (some "false") _ "DROP" (by decide) (by decide)).1
  · exact (denylist_rejects none _ "DROP" (by decide) (by decide)).1

theorem find_none_of_no_keyword {s : List Char}
    (hnd : ∀ kw ∈ DANGEROUS_OPERATIONS, containsWord (upperList s) kw.data = false) :
    DANGEROUS_OPERATIONS.find?
      (fun kw => containsWord (upperList (trimList s)) kw.data) = none := by
  rw [List.find?_eq_none]
  intro kw hkw
  obtain ⟨hne, hword⟩ := dangerous_kw_wordish kw hkw
  rw [containsWord_upper_trim _ _ hne hword, hnd kw hkw]
  exact Bool.false_ne_true

/-- C5 (amended): in write mode, for a statement with no denylisted keyword
whose upper-cased trimmed text contains `UPDATE` or `DELETE` as a substring,
the gate rejects exactly when the text has no `WHERE` *substring* or
contains one of the trivially-true `WHERE` patterns. -/
theorem write_mode_where_gate (env : Option String) (s : List Char)
    (hro : isReadOnlyMode env = false)
    (hnd : ∀ kw ∈ DANGEROUS_OPERATIONS, containsWord (upperList s) kw.data = false)
    (htne : trimList s ≠ [])
    (hud : (containsSub (upperList (trimList s)) "UPDATE".data
        || containsSub (upperList (trimList s)) "DELETE".data) = true) :
    (validateSqlSafety env s).isValid = false ↔
      (containsSub (upperList (trimList s)) "WHERE".data = false ∨
        ∃ pat ∈ dangerousWherePatterns,
          containsSub (upperList (trimList s)) pat = true) := by
  have hsne : s ≠ [] := by
    intro h0
    apply htne
    rw [h0]
    decide
  rw [validateSqlSafety_gate (isEmpty_false_of_ne hsne) (isEmpty_false_of_ne htne)
    (find_none_of_no_keyword hnd), if_neg (by rw [hro]; exact Bool.false_ne_true),
    if_pos hud]
  by_cases hw : validateWhereClause (upperList (trimList s)) = true
  · rw [if_pos hw]
    apply iff_of_false
    · simp [SafetyResult.isValid]
    · unfold validateWhereClause at hw
      rw [Bool.and_eq_true, Bool.not_eq_true'] at hw
      rintro (hcontra | ⟨pat, hmem, hpat⟩)
      · rw [hw.1] at hcontra
        cases hcontra
      · have : dangerousWherePatterns.any
            (fun pat => containsSub (upperList (trimList s)) pat) = true :=
          List.any_eq_true.mpr ⟨pat, hmem, hpat⟩
        rw [hw.2] at this
        cases this
  · rw [if_neg hw]
    apply iff_of_true rfl
    rw [Bool.not_eq_true] at hw
    unfold validateWhereClause at hw
    rw [Bool.and_eq_false_iff] at hw
    rcases hw with hw | hw
    · exact Or.inl hw
    · rw [Bool.not_eq_false'] at hw
      obtain ⟨pat, hmem, hpat⟩ := List.any_eq_true.mp hw
      exact Or.inr ⟨pat, hmem, hpat⟩

/-- Counterexample for C5 as frozen: in write mode, `DELETE FROM WHEREHOUSE`
contains `DELETE`, contains no `WHERE` *token* (word-boundary match), yet the
gate allows it — the source tests `WHERE` as a substring
(`upperSql.includes("WHERE")`), which `WHEREHOUSE` satisfies. -/
theorem write_mode_where_counterexample :
    (validateSqlSafety (some "false") "DELETE FROM WHEREHOUSE".data).isValid = true ∧
      containsWord (upperList (trimList "DELETE FROM WHEREHOUSE".data)) "WHERE".data = false ∧
      containsSub (upperList (trimList "DELETE FROM WHEREHOUSE".data)) "DELETE".data = true ∧
      isReadOnlyMode (some "false") = false := by
  decide

/-- Witness for C5: the three example statements of the claim behave as
stated in write mode. -/
theorem write_mode_where_gate_witness :
    (validateSqlSafety (some "false") "UPDATE t SET x=1".data).isValid = false ∧
      (validateSqlSafety (some "false") "UPDATE t SET x=1 WHERE 1=1".data).isValid = false ∧
      (validateSqlSafety (some "false") "UPDATE t SET x=1 WHERE id=5".data).isValid = true := by
  refine ⟨?_, ?_, ?_⟩
  · exact (write_mode_where_gate (some "false") _ (by decide) (by decide) (by decide)
      (by decide)).mpr (Or.inl (by decide))
  · exact (write_mode_where_gate (some "false") _ (by decide) (by decide) (by decide)
      (by decide)).mpr (Or.inr ⟨"WHERE 1=1".data, by decide, by decide⟩)
  · have hiff := write_mode_where_gate (some "false") "UPDATE t SET x=1 WHERE id=5".data
      (by decide) (by decide) (by decide) (by decide)
    cases hv : (validateSqlSafety (some "false") "UPDATE t SET x=1 WHERE id=5".data).isValid
    · exact absurd (hiff.mp hv) (by decide)
    · rfl

theorem containsSub_of_headMatch {l pat : List Char} (h : pat.isPrefixOf l = true) :
    containsSub l pat = true := by
  cases l with
  | nil =>
    cases pat with
    | nil => rfl
    | cons c t => cases h
  | cons c t => simp only [containsSub, h, Bool.true_or]

theorem containsSub_append_right {b pat : List Char} (a : List Char)
    (h : containsSub b pat = true) : containsSub (a ++ b) pat = true := by
  induction a with
  | nil => exact h
  | cons c t ih =>
    show (pat.isPrefixOf (c :: (t ++ b)) || containsSub (t ++ b) pat) = true
    rw [ih, Bool.or_true]

theorem containsSub_middle (a pat b : List Char) :
    containsSub (a ++ (pat ++ b)) pat = true :=
  containsSub_append_right a (containsSub_of_headMatch (by
    rw [List.isPrefixOf_iff_prefix]
    exact List.prefix_append pat b))

theorem append_limit_ne {s : List Char} (n : Nat) (tail2 : List Char)
    (h : containsSub (upperList s) "LIMIT".data = false) :
    trimList s ++ (" LIMIT " ++ toString n).data ++ tail2 ≠ s := by
  intro heq
  have hup : containsSub (upperList s) "LIMIT".data = true := by
    rw [← heq]
    unfold upperList
    rw [List.map_append, List.map_append, String.data_append]
    have hseg : (" LIMIT ").data = [' '] ++ "LIMIT".data ++ [' '] := by decide
    rw [List.map_append, hseg]
    have hid : ([' '] ++ "LIMIT".data ++ [' ']).map Char.toUpper
        = [' '] ++ "LIMIT".data ++ [' '] := by decide
    rw [hid]
    have hshape :
        (trimList s).map Char.toUpper
            ++ (([' '] ++ "LIMIT".data ++ [' ']) ++ ((toString n).data.map Char.toUpper))
            ++ tail2.map Char.toUpper
          = ((trimList s).map Char.toUpper ++ [' '])
            ++ ("LIMIT".data ++ ([' '] ++ (toString n).data.map Char.toUpper
                ++ tail2.map Char.toUpper)) := by
      simp [List.append_assoc]
    rw [hshape]
    exact containsSub_middle _ _ _
  rw [h] at hup
  cases hup

/-- C6 (amended): `applyPagination` leaves the statement text unchanged
exactly when its upper-cased text contains `LIMIT` or `OFFSET` as a
*substring* or is a single-row aggregate; otherwise it appends
` LIMIT <effectivePageSize>` to the trimmed statement and, when the
effective offset is positive, ` OFFSET <effectiveOffset>`. -/
theorem pagination_rewrite (s : List Char) (ps off : Option Nat) :
    ((applyPagination s ps off).sql = s ↔
      (containsSub (upperList s) "LIMIT".data = true
        ∨ containsSub (upperList s) "OFFSET".data = true
        ∨ isSingleRowAggregate (upperList s) = true)) ∧
    ((containsSub (upperList s) "LIMIT".data = false
        ∧ containsSub (upperList s) "OFFSET".data = false
        ∧ isSingleRowAggregate (upperList s) = false) →
      applyPagination s ps off =
        { sql := trimList s
            ++ (" LIMIT " ++ toString (min (jsOrNat ps DEFAULT_PAGE_SIZE) MAX_PAGE_SIZE)).data
            ++ (if jsOrNat off 0 > 0 then (" OFFSET " ++ toString (jsOrNat off 0)).data else [])
          actualPageSize := min (jsOrNat ps DEFAULT_PAGE_SIZE) MAX_PAGE_SIZE
          actualOffset := jsOrNat off 0 }) := by
  by_cases hpass : (containsSub (upperList s) "LIMIT".data
      || containsSub (upperList s) "OFFSET".data) = true
  · constructor
    · apply iff_of_true
      · simp [applyPagination, hpass]
      · rcases Bool.or_eq_true _ _ ▸ hpass with h | h
        · exact Or.inl h
        · exact Or.inr (Or.inl h)
    · rintro ⟨hL, hO, _⟩
      rw [hL, hO] at hpass
      cases hpass
  · have hor : (containsSub (upperList s) "LIMIT".data
        || containsSub (upperList s) "OFFSET".data) = false := by
      cases hb : (containsSub (upperList s) "LIMIT".data
          || containsSub (upperList s) "OFFSET".data)
      · rfl
      · exact absurd hb hpass
    have hLO := Bool.or_eq_false_iff.mp hor
    by_cases hagg : isSingleRowAggregate (upperList s) = true
    · constructor
      · apply iff_of_true
        · simp [applyPagination, hLO.1, hLO.2, hagg]
        · exact Or.inr (Or.inr hagg)
      · rintro ⟨_, _, haggf⟩
        rw [haggf] at hagg
        cases hagg
    · have haggf : isSingleRowAggregate (upperList s) = false := by
        cases hb : isSingleRowAggregate (upperList s)
        · rfl
        · exact absurd hb hagg
      constructor
      · apply iff_of_false
        · simp only [applyPagination, hLO.1, hLO.2, haggf, Bool.or_self,
            Bool.false_eq_true, if_false]
          exact append_limit_ne _ _ hLO.1
        · rintro (h | h | h)
          · rw [hLO.1] at h; cases h
          · rw [hLO.2] at h; cases h
          · rw [haggf] at h; cases h
      · intro _
        simp [applyPagination, hLO.1, hLO.2, haggf]

/-- Counterexample for C6 as frozen: `SELECT LIMITATION FROM t` contains the
token `LIMIT` only as a prefix of the word `LIMITATION` (no word-boundary
match) and is no aggregate, yet the rewriter passes it through unchanged —
the source tests `LIMIT` with a substring `includes`, not as a token. -/
theorem pagination_token_counterexample :
    (applyPagination "SELECT LIMITATION FROM t".data none none).sql
        = "SELECT LIMITATION FROM t".data ∧
      containsWord (upperList "SELECT LIMITATION FROM t".data) "LIMIT".data = false ∧
      containsWord (upperList "SELECT LIMITATION FROM t".data) "OFFSET".data = false ∧
      isSingleRowAggregate (upperList "SELECT LIMITATION FROM t".data) = false := by
  decide

theorem validateQueryInput_none_pageSize {inp : QueryInput} {n : Nat}
    (h : validateQueryInput inp = none) (hn : inp.pageSize = some n) :
    1 ≤ n ∧ n ≤ 500 := by
  unfold validateQueryInput at h
  split at h
  · cases h
  · split at h
    · cases h
    · split at h
      · cases h
      · simp only [hn] at h
        split at h
        · cases h
        · split at h
          · cases h
          · rename_i h1 h2
            omega

theorem applyPagination_pageSize_le {s : List Char} {ps off : Option Nat}
    (hps : ∀ n, ps = some n → n ≤ 500) :
    (applyPagination s ps off).actualPageSize ≤ 500 := by
  have hjs : jsOrNat ps DEFAULT_PAGE_SIZE ≤ 500 := by
    cases ps with
    | none => decide
    | some n =>
      show (if (n == 0) = true then DEFAULT_PAGE_SIZE else n) ≤ 500
      by_cases h0 : (n == 0) = true
      · rw [if_pos h0]
        decide
      · rw [if_neg h0]
        exact hps n rfl
  simp only [applyPagination]
  split
  · exact hjs
  · split
    · exact Nat.min_le_right _ _
    · exact Nat.min_le_right _ _

/-- C7 (amended): the pagination rewriter computes
`min(pageSize or default, MAX_PAGE_SIZE)` whenever it rewrites, and no
response of the query tool ever reports a pagination page size above the
configured maximum of 500 (requests with `pageSize > 500` are rejected by
input validation before pagination runs). -/
theorem effective_page_size :
    (∀ (s : List Char) (ps off : Option Nat),
      (containsSub (upperList s) "LIMIT".data
          || containsSub (upperList s) "OFFSET".data) = false →
        (applyPagination s ps off).actualPageSize
          = min (jsOrNat ps DEFAULT_PAGE_SIZE) MAX_PAGE_SIZE) ∧
    (∀ (ρ : Type) (env : Option String) (db : List Char → DbResult ρ)
        (inp : QueryInput) (pm : PaginationInfo),
      (queryTool env db inp).pagination = some pm → pm.pageSize ≤ MAX_PAGE_SIZE) := by
  constructor
  · intro s ps off h
    unfold applyPagination
    rw [if_neg (by rw [h]; exact Bool.false_ne_true)]
    split <;> rfl
  · intro ρ env db inp pm h
    simp only [queryTool] at h
    split at h
    · cases h
    · rename_i hval
      split at h
      · cases h
      · split at h
        · have hb : (applyPagination (trimList inp.sql) inp.pageSize inp.offset).actualPageSize ≤ 500 := by
            apply applyPagination_pageSize_le
            intro n hn
            exact (validateQueryInput_none_pageSize hval hn).2
          split at h
          · simp only [execRead] at h
            split at h
            · cases h
            · rw [Option.some_inj] at h
              rw [← h]
              exact hb
          · split at h
            · cases h
            · simp only [execRead] at h
              split at h
              · cases h
              · rw [Option.some_inj] at h
                rw [← h]
                exact hb
        · split at h
          · simp only [execWrite] at h
            split at h
            · cases h
            · cases h
          · split at h
            · cases h
            · simp only [execWrite] at h
              split at h
              · cases h
              · cases h

/-- Counterexample for C7 as frozen: a request with `pageSize = 10000` is
not clamped to 500 — input validation rejects it before pagination, so the
response is a validation error with no pagination metadata. -/
theorem page_size_10000_rejected :
    queryTool none (fun _ => DbResult.success ([] : List Unit) none)
        { sql := "SELECT * FROM t".data, pageSize := some 10000 }
      = { error := some "Input validation failed: pageSize: Number must be less than or equal to 500" } := by
  rfl

theorem classifyError_eq_spec (msg : List Char) : classifyError msg = specClassify msg := by
  cases h1 : containsSub msg "syntax error".data with
  | true => simp [classifyError, specClassify, errorRules, List.find?, h1]
  | false =>
  cases h2 : (containsSub msg "permission denied".data
      || containsSub msg "access denied".data) with
  | true => simp [classifyError, specClassify, errorRules, List.find?, h1, h2]
  | false =>
  cases h3 : (containsSub msg "duplicate key value".data
      || containsSub msg "unique constraint".data) with
  | true => simp [classifyError, specClassify, errorRules, List.find?, h1, h2, h3]
  | false =>
  cases h4 : containsSub msg "foreign key constraint".data with
  | true => simp [classifyError, specClassify, errorRules, List.find?, h1, h2, h3, h4]
  | false =>
  cases h5 : (containsSub msg "relation".data
      && containsSub msg "does not exist".data) with
  | true => simp [classifyError, specClassify, errorRules, List.find?, h1, h2, h3, h4, h5]
  | false =>
  cases h6 : (containsSub msg "column".data
      && containsSub msg "does not exist".data) with
  | true => simp [classifyError, specClassify, errorRules, List.find?, h1, h2, h3, h4, h5, h6]
  | false =>
  cases h7 : (containsSub msg "timeout".data || containsSub msg "cancelled".data) with
  | true => simp [classifyError, specClassify, errorRules, List.find?, h1, h2, h3, h4, h5, h6, h7]
  | false => simp [classifyError, specClassify, errorRules, List.find?, h1, h2, h3, h4, h5, h6, h7]

/-- C8: the raw backend message is mapped by the ordered substring rules of
`errorRules`, first match winning, into one of the eight error codes;
a message containing `duplicate key value` (and not matching an earlier
rule) classifies as `DUPLICATE_KEY` with a non-empty hint; a message
matching no rule classifies as `DATABASE_ERROR`. -/
theorem error_classification (msg : List Char) :
    classifyError msg = specClassify msg ∧
    (classifyError msg).code ∈
      ["SYNTAX_ERROR", "PERMISSION_DENIED", "DUPLICATE_KEY", "FOREIGN_KEY_VIOLATION",
       "RELATION_NOT_FOUND", "COLUMN_NOT_FOUND", "TIMEOUT", "DATABASE_ERROR"] ∧
    (containsSub msg "duplicate key value".data = true →
      containsSub msg "syntax error".data = false →
      containsSub msg "permission denied".data = false →
      containsSub msg "access denied".data = false →
      (classifyError msg).code = "DUPLICATE_KEY" ∧ (classifyError msg).hint ≠ "") ∧
    ((∀ r ∈ errorRules, r.test msg = false) →
      (classifyError msg).code = "DATABASE_ERROR") := by
  refine ⟨classifyError_eq_spec msg, ?_, ?_, ?_⟩
  · unfold classifyError
    split_ifs <;> simp
  · intro hd hs hp ha
    simp [classifyError, hd, hs, hp, ha]
  · intro hall
    rw [classifyError_eq_spec msg]
    unfold specClassify
    rw [List.find?_eq_none.mpr (fun r hr => by rw [hall r hr]; exact Bool.false_ne_true)]

/-- The `Rows` variant of a response: rows, rowCount and pagination are
populated, nothing else. -/
def isRowsVariant {ρ : Type} (o : QueryOutput ρ) : Prop :=
  o.rows.isSome = true ∧ o.rowCount.isSome = true ∧ o.pagination.isSome = true
    ∧ o.error = none ∧ o.code = none ∧ o.hint = none

/-- The `Affected` variant: only rowCount is populated. -/
def isAffectedVariant {ρ : Type} (o : QueryOutput ρ) : Prop :=
  o.rowCount.isSome = true ∧ o.rows = none ∧ o.pagination = none
    ∧ o.error = none ∧ o.code = none ∧ o.hint = none

/-- The `Failure` variant: an error message (with optional code and hint),
and no result fields. -/
def isErrorVariant {ρ : Type} (o : QueryOutput ρ) : Prop :=
  o.error.isSome = true ∧ o.rows = none ∧ o.rowCount = none ∧ o.pagination = none

/-- Exactly one of the three response variants holds. -/
def ExactlyOneVariant {ρ : Type} (o : QueryOutput ρ) : Prop :=
  (isRowsVariant o ∧ ¬ isAffectedVariant o ∧ ¬ isErrorVariant o)
    ∨ (isAffectedVariant o ∧ ¬ isRowsVariant o ∧ ¬ isErrorVariant o)
    ∨ (isErrorVariant o ∧ ¬ isRowsVariant o ∧ ¬ isAffectedVariant o)

theorem exactlyOne_error {ρ : Type} {m : String} {c h : Option String} :
    ExactlyOneVariant ({ error := some m, code := c, hint := h } : QueryOutput ρ) := by
  refine Or.inr (Or.inr ⟨⟨rfl, rfl, rfl, rfl⟩, ?_, ?_⟩) <;>
    rintro ⟨h1, h2, h3, h4, h5, h6⟩ <;> cases h1

theorem exactlyOne_rows {ρ : Type} {rs : List ρ} {n : Nat} {pm : PaginationInfo} :
    ExactlyOneVariant ({ rows := some rs, rowCount := some n, pagination := some pm } :
      QueryOutput ρ) := by
  refine Or.inl ⟨⟨rfl, rfl, rfl, rfl, rfl, rfl⟩, ?_, ?_⟩
  · rintro ⟨h1, h2, h3, h4, h5, h6⟩
    cases h2
  · rintro ⟨h1, h2, h3, h4⟩
    cases h1

theorem exactlyOne_affected {ρ : Type} {n : Nat} :
    ExactlyOneVariant ({ rowCount := some n } : QueryOutput ρ) := by
  refine Or.inr (Or.inl ⟨⟨rfl, rfl, rfl, rfl, rfl, rfl⟩, ?_, ?_⟩)
  · rintro ⟨h1, h2, h3, h4, h5, h6⟩
    cases h1
  · rintro ⟨h1, h2, h3, h4⟩
    cases h1

/-- C9: every response of the query tool populates exactly one of the three
variants — rows with rowCount and pagination, rowCount alone, or an error
(with optional code and hint) — never rows together with error. -/
theorem single_variant_response (ρ : Type) (env : Option String)
    (db : List Char → DbResult ρ) (inp : QueryInput) :
    ExactlyOneVariant (queryTool env db inp) := by
  simp only [queryTool]
  split
  · exact exactlyOne_error
  · split
    · exact exactlyOne_error
    · split
      · split
        · simp only [execRead]
          split
          · exact exactlyOne_error
          · exact exactlyOne_rows
        · split
          · exact exactlyOne_error
          · simp only [execRead]
            split
            · exact exactlyOne_error
            · exact exactlyOne_rows
      · split
        · simp only [execWrite]
          split
          · exact exactlyOne_error
          · exact exactlyOne_affected
        · split
          · exact exactlyOne_error
          · simp only [execWrite]
            split
            · exact exactlyOne_error
            · exact exactlyOne_affected

/-- C10: the gate is in read-only mode unless the `READ_ONLY` value is
exactly the string `false`; `FALSE`, `0`, `no` and an unset variable all
leave read-only mode on. The environment value is an argument of every
`validateSqlSafety` call (the source calls `isReadOnlyMode()` per request),
and the gate's verdict tracks the value passed at that call: the same
`INSERT` is allowed under `false` and rejected under `FALSE`. -/
theorem read_only_env_semantics :
    (∀ env : Option String, isReadOnlyMode env = true ↔ env ≠ some "false") ∧
    isReadOnlyMode (some "FALSE") = true ∧
    isReadOnlyMode (some "0") = true ∧
    isReadOnlyMode (some "no") = true ∧
    isReadOnlyMode none = true ∧
    (validateSqlSafety (some "false") "INSERT INTO t VALUES (1)".data).isValid = true ∧
    (validateSqlSafety (some "FALSE") "INSERT INTO t VALUES (1)".data).isValid = false := by
  refine ⟨?_, by decide, by decide, by decide, by decide, by decide, by decide⟩
  intro env
  unfold isReadOnlyMode
  exact bne_iff_ne

/-- C3 (code bug): a read-only statement with the single parameter
`Infinity` is *not* rejected — the `return` of the error object happens
inside the `forEach` callback and is discarded — and the statement is
executed against the backend with the `$1` placeholder left in place (the
stub backend here only succeeds on exactly that text). -/
theorem infinity_param_executes :
    queryTool none
        (fun stmt =>
          if stmt = "SELECT * FROM t WHERE x = $1 LIMIT 100".data
          then DbResult.success [()] none
          else DbResult.failure "unexpected statement".data)
        { sql := "SELECT * FROM t WHERE x = $1".data, parameters := some [.num .posInf] }
      = { rows := some [()], rowCount := some 1,
          pagination := some { hasMore := false, pageSize := 100, offset := 0 } } := by
  decide

/-- No ECMAScript replacement pattern (`$$`, `$&`, a `$` before a backtick,
or a `$` before a single quote) occurs in the template. -/
def noSpecials (t : List Char) : Bool :=
  !(containsSub t ['$', '$'] || containsSub t ['$', '&']
    || containsSub t ['$', btick] || containsSub t ['$', squote])

theorem containsSub_cons_false {c : Char} {t pat : List Char}
    (h : containsSub (c :: t) pat = false) : containsSub t pat = false := by
  simp only [containsSub, Bool.or_eq_false_iff] at h
  exact h.2

theorem noSpecials_parts {t : List Char} (h : noSpecials t = true) :
    containsSub t ['$', '$'] = false ∧ containsSub t ['$', '&'] = false
      ∧ containsSub t ['$', btick] = false ∧ containsSub t ['$', squote] = false := by
  simp only [noSpecials, Bool.not_eq_eq_eq_not, Bool.not_true, Bool.or_eq_false_iff] at h
  exact ⟨h.1.1.1, h.1.1.2, h.1.2, h.2⟩

theorem noSpecials_tail {c : Char} {t : List Char} (h : noSpecials (c :: t) = true) :
    noSpecials t = true := by
  obtain ⟨h1, h2, h3, h4⟩ := noSpecials_parts h
  simp only [noSpecials, Bool.not_eq_eq_eq_not, Bool.not_true, Bool.or_eq_false_iff]
  exact ⟨⟨⟨containsSub_cons_false h1, containsSub_cons_false h2⟩,
    containsSub_cons_false h3⟩, containsSub_cons_false h4⟩

theorem containsSub_two_head {d : Char} {rest2 : List Char} :
    containsSub ('$' :: d :: rest2) ['$', d] = true := by
  have hpre : (['$', d] : List Char).isPrefixOf ('$' :: d :: rest2) = true := by
    simp [List.isPrefixOf]
  simp only [containsSub, hpre, Bool.true_or]

theorem expandTemplate_noSpecials (m b a : List Char) (t : List Char)
    (h : noSpecials t = true) : expandTemplate m b a t = t := by
  have general : ∀ (n : Nat) (t : List Char), t.length ≤ n → noSpecials t = true →
      expandTemplate m b a t = t := by
    intro n
    induction n with
    | zero =>
      intro t ht _
      cases t with
      | nil => rfl
      | cons c rest => simp at ht
    | succ k ih =>
      intro t ht hns
      match t with
      | [] => rfl
      | [c] => rfl
      | c :: d :: rest =>
        have hlen : (d :: rest).length ≤ k := by
          simp only [List.length_cons] at ht ⊢
          omega
        by_cases hc : (c == '$') = true
        · have hceq : c = '$' := by rwa [beq_iff_eq] at hc
          subst hceq
          obtain ⟨h1, h2, h3, h4⟩ := noSpecials_parts hns
          have hd1 : (d == '$') = false := by
            cases hb : (d == '$')
            · rfl
            · have hdeq : d = '$' := by rwa [beq_iff_eq] at hb
              subst hdeq
              rw [containsSub_two_head] at h1
              cases h1
          have hd2 : (d == '&') = false := by
            cases hb : (d == '&')
            · rfl
            · have hdeq : d = '&' := by rwa [beq_iff_eq] at hb
              subst hdeq
              rw [containsSub_two_head] at h2
              cases h2
          have hd3 : (d == btick) = false := by
            cases hb : (d == btick)
            · rfl
            · have hdeq : d = btick := by rwa [beq_iff_eq] at hb
              subst hdeq
              rw [containsSub_two_head] at h3
              cases h3
          have hd4 : (d == squote) = false := by
            cases hb : (d == squote)
            · rfl
            · have hdeq : d = squote := by rwa [beq_iff_eq] at hb
              subst hdeq
              rw [containsSub_two_head] at h4
              cases h4
          have hstep : expandTemplate m b a ('$' :: d :: rest)
              = '$' :: expandTemplate m b a (d :: rest) := by
            simp only [expandTemplate]
            rw [if_pos (by decide), if_neg (by rw [hd1]; exact Bool.false_ne_true),
              if_neg (by rw [hd2]; exact Bool.false_ne_true),
              if_neg (by rw [hd3]; exact Bool.false_ne_true),
              if_neg (by rw [hd4]; exact Bool.false_ne_true)]
          rw [hstep, ih (d :: rest) hlen (noSpecials_tail hns)]
        · have hstep : expandTemplate m b a (c :: d :: rest)
              = c :: expandTemplate m b a (d :: rest) := by
            simp only [expandTemplate]
            rw [if_neg hc]
          rw [hstep, ih (d :: rest) hlen (noSpecials_tail hns)]
  exact general t.length t le_rfl h

theorem spliceSegs_congr {l : List Char} {patLen : Nat} {f g : Nat → List Char}
    (ms : List Nat) (j : Nat) (h : ∀ i ∈ ms, f i = g i) :
    spliceSegs l patLen f ms j = spliceSegs l patLen g ms j := by
  induction ms generalizing j with
  | nil => rfl
  | cons i rest ih =>
    simp only [spliceSegs]
    rw [h i (List.mem_cons_self i rest), ih _ (fun x hx => h x (List.mem_cons_of_mem i hx))]

theorem jsReplaceAll_eq_plain {l pat repl : List Char} (h : noSpecials repl = true) :
    jsReplaceAll l pat repl = plainReplaceAll l pat repl := by
  unfold jsReplaceAll plainReplaceAll
  exact spliceSegs_congr _ _ (fun i _ => expandTemplate_noSpecials _ _ _ _ h)

/-- A parameter the substitution loop actually substitutes: one of the four
allowed primitive types, with numbers finite. -/
def SqlParam.substitutable : SqlParam → Bool
  | .num n => n.isFinite
  | .obj => false
  | _ => true

theorem substStep_eq {acc : List Char} {idx : Nat} {p : SqlParam}
    (hs : p.substitutable = true) (hn : noSpecials (escapeLiteral p) = true) :
    substStep acc idx p = plainReplaceAll acc (phText (idx + 1)) (escapeLiteral p) := by
  cases p with
  | null => exact jsReplaceAll_eq_plain hn
  | str s => exact jsReplaceAll_eq_plain hn
  | bool b => exact jsReplaceAll_eq_plain hn
  | obj => cases hs
  | num n =>
    have hf : n.isFinite = true := hs
    show (if n.isFinite = true then _ else _) = _
    rw [if_pos hf]
    exact jsReplaceAll_eq_plain hn

/-- C4 (amended): when every parameter is a null/string/boolean/finite
number whose escaped literal contains no ECMAScript replacement pattern
(`$$`, `$&`, `$`-backtick, `$`-quote), the substitution loop of the source
coincides with the plain whole-token literal substitution that the spec
describes. -/
theorem substitution_matches_spec (s : List Char) (ps : List SqlParam)
    (h : ∀ p ∈ ps, p.substitutable = true ∧ noSpecials (escapeLiteral p) = true) :
    substituteParams s ps = specSubstituteParams s ps := by
  suffices hgen : ∀ (qs : List SqlParam) (idx : Nat) (acc : List Char),
      (∀ p ∈ qs, p.substitutable = true ∧ noSpecials (escapeLiteral p) = true) →
      substituteFrom idx acc qs = specSubstituteFrom idx acc qs from
    hgen ps 0 s h
  intro qs
  induction qs with
  | nil => intro idx acc _; rfl
  | cons p rest ih =>
    intro idx acc hall
    simp only [substituteFrom, specSubstituteFrom]
    rw [substStep_eq (hall p (List.mem_cons_self p rest)).1
      (hall p (List.mem_cons_self p rest)).2]
    exact ih _ _ (fun q hq => hall q (List.mem_cons_of_mem p hq))

/-- Counterexample for C4 as frozen: for the parameter string `$&` the
escaped literal is `'$&'`, and JavaScript `replace` expands `$&` to the
matched text `$1`, so the source substitutes `SELECT '$1'` where the claim's
plain literal substitution yields `SELECT '$&'`. -/
theorem substitution_dollar_counterexample :
    substituteParams "SELECT $1".data [.str ['$', '&']]
        = ("SELECT ".data ++ [squote, '$', '1', squote]) ∧
      specSubstituteParams "SELECT $1".data [.str ['$', '&']]
        = ("SELECT ".data ++ [squote, '$', '&', squote]) ∧
      substituteParams "SELECT $1".data [.str ['$', '&']]
        ≠ specSubstituteParams "SELECT $1".data [.str ['$', '&']] := by
  decide

/-- Witness for C4: the claim's own example — `O'Brien` substitutes to
`'O''Brien'` (quotes doubled), matching the spec-worded substitution — and
`$1` is never matched as a prefix of `$10`. -/
theorem substitution_matches_spec_witness :
    substituteParams "SELECT * FROM t WHERE name = $1".data
        [.str ("O".data ++ [squote] ++ "Brien".data)]
      = specSubstituteParams "SELECT * FROM t WHERE name = $1".data
        [.str ("O".data ++ [squote] ++ "Brien".data)] ∧
    substituteParams "SELECT * FROM t WHERE name = $1".data
        [.str ("O".data ++ [squote] ++ "Brien".data)]
      = ("SELECT * FROM t WHERE name = ".data ++ [squote, 'O', squote, squote]
          ++ "Brien".data ++ [squote]) ∧
    substituteParams "SELECT $10 FROM t".data [.str "x".data]
      = "SELECT $10 FROM t".data := by
  refine ⟨substitution_matches_spec _ _ ?_, by decide, by decide⟩
  intro p hp
  rw [List.mem_singleton] at hp
  subst hp
  exact ⟨rfl, by decide⟩
